import Mathlib

/-!
Verification of the partitioned bulk-ingestion core of `parallel-surreal`.

The definitions below are a shallow embedding of `src/main.rs` (the SurrealDB
variant, which is the authoritative one) with the template variant
(`template/main.rs`) consulted where the claims cite it.  Network effects are
modelled by an explicit sink oracle: `sink k` is the result the destination
store returns for the k-th (0-based) batch write of a worker.
-/

namespace ParallelSurreal

/-- `Version` record from `main.rs` (`pub struct Version`). -/
structure Version where
  created : String
  version : String
deriving DecidableEq, Repr

/-- `ArxivEntry` from `main.rs`: the record type loaded from the input JSON.
The serde rename maps `abstract_text` to the wire field `abstract`.
The `id` field is a `u32` in the source; it is only stored and serialized,
never used arithmetically, so `Nat` models it faithfully. -/
structure ArxivEntry where
  abstract_text : Option String
  authors : Option String
  authors_parsed : List (List String)
  categories : Option String
  comments : Option String
  doi : Option String
  id : Nat
  journal_ref : Option String
  license : Option String
  report_no : Option String
  submitter : Option String
  title : Option String
  update_date : Option String
  versions : List Version
deriving DecidableEq, Repr

/-- `ArxivEntry2` from `main.rs`: the same record without the `id` field;
this is the type actually sent to the sink by `insert_items`. -/
structure ArxivEntry2 where
  abstract_text : Option String
  authors : Option String
  authors_parsed : List (List String)
  categories : Option String
  comments : Option String
  doi : Option String
  journal_ref : Option String
  license : Option String
  report_no : Option String
  submitter : Option String
  title : Option String
  update_date : Option String
  versions : List Version
deriving DecidableEq, Repr

/-- `impl From<ArxivEntry> for ArxivEntry2` from `main.rs` lines 103-121:
copies every field except `id`, which has no counterpart. -/
def toArxivEntry2 (entry : ArxivEntry) : ArxivEntry2 :=
  { abstract_text := entry.abstract_text
    authors := entry.authors
    authors_parsed := entry.authors_parsed
    categories := entry.categories
    comments := entry.comments
    doi := entry.doi
    journal_ref := entry.journal_ref
    license := entry.license
    report_no := entry.report_no
    submitter := entry.submitter
    title := entry.title
    update_date := entry.update_date
    versions := entry.versions }

/-- A serialized field value, covering the field types of the record structs. -/
inductive FieldVal where
  | ostr : Option String → FieldVal
  | sll : List (List String) → FieldVal
  | num : Nat → FieldVal
  | vers : List Version → FieldVal
deriving DecidableEq, Repr

/-- The wire form of an `ArxivEntry` as serde serializes it: the ordered list
of (field name, value) pairs, with the `abstract` rename applied. -/
def fieldsOf (e : ArxivEntry) : List (String × FieldVal) :=
  [("abstract", .ostr e.abstract_text),
   ("authors", .ostr e.authors),
   ("authors_parsed", .sll e.authors_parsed),
   ("categories", .ostr e.categories),
   ("comments", .ostr e.comments),
   ("doi", .ostr e.doi),
   ("id", .num e.id),
   ("journal_ref", .ostr e.journal_ref),
   ("license", .ostr e.license),
   ("report_no", .ostr e.report_no),
   ("submitter", .ostr e.submitter),
   ("title", .ostr e.title),
   ("update_date", .ostr e.update_date),
   ("versions", .vers e.versions)]

/-- The wire form of an `ArxivEntry2` as serde serializes it. -/
def fieldsOf2 (e : ArxivEntry2) : List (String × FieldVal) :=
  [("abstract", .ostr e.abstract_text),
   ("authors", .ostr e.authors),
   ("authors_parsed", .sll e.authors_parsed),
   ("categories", .ostr e.categories),
   ("comments", .ostr e.comments),
   ("doi", .ostr e.doi),
   ("journal_ref", .ostr e.journal_ref),
   ("license", .ostr e.license),
   ("report_no", .ostr e.report_no),
   ("submitter", .ostr e.submitter),
   ("title", .ostr e.title),
   ("update_date", .ostr e.update_date),
   ("versions", .vers e.versions)]

/-- The start index computed by `get_slice`: `(thread - 1) * data.len() / num_threads`. -/
def sliceStart (len thread num_threads : Nat) : Nat :=
  (thread - 1) * len / num_threads

/-- The end index computed by `get_slice`: `thread * data.len() / num_threads`. -/
def sliceEnd (len thread num_threads : Nat) : Nat :=
  thread * len / num_threads

/-- `get_slice` from `main.rs` lines 260-264 (identical in both variants):
`data[start..end].to_vec()` with the bounds above.  The Rust slice
`data[start..end]` is `(data.drop start).take (end - start)` whenever
`start ≤ end ≤ data.len()` (proved in bounds below); generic over the
element type, instantiated at `ArxivEntry` by the source. -/
def get_slice {α : Type} (data : List α) (thread num_threads : Nat) : List α :=
  (data.drop (sliceStart data.length thread num_threads)).take
    (sliceEnd data.length thread num_threads - sliceStart data.length thread num_threads)

/-- Rust `slice::chunks(n)`: `⌈len/n⌉` successive sub-slices of stride `n`,
the last one shorter when the length is not divisible.  The chunk count
`(len + n - 1) / n` is the very expression `insert_items` prints at line 207.
The source only evaluates this for `n ≠ 0` (`chunks(0)` panics in Rust;
`insertItems` below models that panic before this is reached), so the value
at `n = 0` is irrelevant. -/
def chunks {α : Type} (n : Nat) (l : List α) : List (List α) :=
  (List.range ((l.length + n - 1) / n)).map (fun i => (l.drop (i * n)).take n)

/-- Terminal outcome of one call to `insert_items`, as observed by the caller
and on stderr: `ok` is `Ok(())`; `fail b e` is `Err(e)` after the stderr line
naming the 1-based chunk number `b` (`i + 1` in the source); `panicked` is the
Rust panic raised by `items.chunks(0)` when `chunk_size` is zero. -/
inductive InsertOutcome (ε : Type) where
  | ok : InsertOutcome ε
  | fail : Nat → ε → InsertOutcome ε
  | panicked : InsertOutcome ε
deriving DecidableEq, Repr

/-- Observable trace of one `insert_items` call: whether `build_connection`
was invoked, the batches for which a `db.insert(..).content(chunk)` call was
issued (in order), the batches whose call returned `Ok`, and the outcome. -/
structure WorkerTrace (ε : Type) where
  connected : Bool
  attempted : List (List ArxivEntry2)
  written : List (List ArxivEntry2)
  outcome : InsertOutcome ε
deriving DecidableEq, Repr

/-- The `for (i, chunk) in items.chunks(chunk_size).enumerate()` loop of
`insert_items` (lines 202-233): each iteration issues one write; `Ok`
continues, the first `Err(e)` returns immediately with `Err(e)` after logging
chunk `i + 1`, so no later chunk is attempted.  `sink k` is the result of the
write for the 0-based chunk index `k`.  Returns (attempted, written, outcome). -/
def writeLoop {ε : Type} (sink : Nat → Except ε Unit) :
    Nat → List (List ArxivEntry2) →
    List (List ArxivEntry2) × List (List ArxivEntry2) × InsertOutcome ε
  | _, [] => ([], [], .ok)
  | i, b :: rest =>
    match sink i with
    | .ok _ =>
      let r := writeLoop sink (i + 1) rest
      (b :: r.1, b :: r.2.1, r.2.2)
    | .error e => ([b], [], .fail (i + 1) e)

/-- `insert_items` from `main.rs` lines 184-238.  If the slice is empty it
returns `Ok(())` before `build_connection` is called, so no connection and no
write occurs.  Otherwise it converts the items to `ArxivEntry2`, builds the
connection, and iterates the chunks; `items.chunks(0)` panics in Rust, which
happens after `build_connection` (line 199) and before any write, modelled as
the `panicked` outcome with an empty attempt list. -/
def insertItems {ε : Type} (items : List ArxivEntry) (chunkSize : Nat)
    (sink : Nat → Except ε Unit) : WorkerTrace ε :=
  if items = [] then
    { connected := false, attempted := [], written := [], outcome := .ok }
  else if chunkSize = 0 then
    { connected := true, attempted := [], written := [], outcome := .panicked }
  else
    let r := writeLoop sink 0 (chunks chunkSize (items.map toArxivEntry2))
    { connected := true, attempted := r.1, written := r.2.1, outcome := r.2.2 }

/-- The table name actually used by `main` (lines 150-154): the `--table`
argument when present, otherwise the random string generated once at line 134. -/
def resolveTable (cliTable : Option String) (rand : String) : String :=
  cliTable.getD rand

/-- One spawned worker as `main` observes it: the 1-based thread id, the table
it targets, and the trace of its `insert_items` call. -/
structure WorkerRun (ε : Type) where
  threadId : Nat
  table : String
  trace : WorkerTrace ε
deriving DecidableEq, Repr

/-- The whole run as `main` (lines 129-179) performs it.  `rand` stands for
the one call to `generate_random_string` at line 134; `sinks i` is the sink
oracle of thread `i`.  The table is resolved once before the spawn loop; the
loop runs `i` over `1..=threads`, slices the dataset with `get_slice`, and
spawns `insert_items` per thread.  `exitCode` is 0 on every path because
`main` matches each worker result only to print it and unconditionally ends
with `Ok(())`. -/
structure MainRun (ε : Type) where
  table : String
  workers : List (WorkerRun ε)
  exitCode : Nat
deriving Repr

/-- Model of `main`: resolve the table once, spawn one worker per thread id
`1..=threads`, each on its own slice with its own sink, then exit 0. -/
def runMain {ε : Type} (threads : Nat) (cliTable : Option String)
    (chunkSize : Nat) (rand : String) (data : List ArxivEntry)
    (sinks : Nat → Nat → Except ε Unit) : MainRun ε :=
  let table := resolveTable cliTable rand
  { table := table
    workers := (List.range threads).map (fun j =>
      { threadId := j + 1
        table := table
        trace := insertItems (get_slice data (j + 1) threads) chunkSize (sinks (j + 1)) })
    exitCode := 0 }

/-- A concrete sample record used to exercise the definitions. -/
def sampleEntry : ArxivEntry :=
  { abstract_text := some "a"
    authors := none
    authors_parsed := [["x"]]
    categories := none
    comments := none
    doi := none
    id := 5
    journal_ref := none
    license := none
    report_no := none
    submitter := none
    title := some "t"
    update_date := none
    versions := [⟨"2007", "v1"⟩] }

/-- A family of distinct sample records, distinguished by `id`. -/
def sampleEntryAt (k : Nat) : ArxivEntry :=
  { sampleEntry with id := k }

/-! ### Lemmas about `chunks` -/

lemma numChunks_succ (L n : Nat) (hn : n ≠ 0) (hL : L ≠ 0) :
    (L + n - 1) / n = (L - 1) / n + 1 := by
  have h : L + n - 1 = (L - 1) + n := by omega
  rw [h, Nat.add_div_right _ (Nat.pos_of_ne_zero hn)]

lemma le_numChunks_mul (L n : Nat) (hn : n ≠ 0) :
    L ≤ ((L + n - 1) / n) * n := by
  have h := Nat.div_add_mod (L + n - 1) n
  have h2 : (L + n - 1) % n < n := Nat.mod_lt _ (Nat.pos_of_ne_zero hn)
  have h3 : ((L + n - 1) / n) * n = n * ((L + n - 1) / n) := Nat.mul_comm _ _
  omega

lemma numChunks_pred_mul_lt (L n : Nat) (hn : n ≠ 0) (hL : L ≠ 0) :
    ((L + n - 1) / n - 1) * n < L := by
  rw [numChunks_succ L n hn hL, Nat.add_sub_cancel]
  calc ((L - 1) / n) * n ≤ L - 1 := Nat.div_mul_le_self _ _
    _ < L := by omega

lemma chunks_length {α : Type} (n : Nat) (l : List α) :
    (chunks n l).length = (l.length + n - 1) / n := by
  simp [chunks]

lemma chunks_getElem? {α : Type} (n : Nat) (l : List α) (i : Nat)
    (hi : i < (l.length + n - 1) / n) :
    (chunks n l)[i]? = some ((l.drop (i * n)).take n) := by
  simp [chunks, List.getElem?_map, List.getElem?_range, hi]

lemma chunks_flatten_aux {α : Type} (n : Nat) (l : List α) :
    ∀ m, ((List.range m).map (fun i => (l.drop (i * n)).take n)).flatten
      = l.take (m * n) := by
  intro m
  induction m with
  | zero => simp
  | succ m ih =>
    rw [List.range_succ, List.map_append, List.flatten_append, ih]
    simp only [List.map_cons, List.map_nil, List.flatten_cons, List.flatten_nil,
      List.append_nil]
    rw [← List.take_add, Nat.succ_mul]

lemma chunks_flatten {α : Type} {n : Nat} (hn : n ≠ 0) (l : List α) :
    (chunks n l).flatten = l := by
  unfold chunks
  rw [chunks_flatten_aux n l]
  exact List.take_of_length_le (le_numChunks_mul l.length n hn)

lemma range_dropLast (N : Nat) : (List.range N).dropLast = List.range (N - 1) := by
  cases N with
  | zero => rfl
  | succ m => rw [List.range_succ, List.dropLast_concat, Nat.add_sub_cancel]

lemma chunks_dropLast {α : Type} {n : Nat} (hn : n ≠ 0) (l : List α) :
    ∀ b ∈ (chunks n l).dropLast, b.length = n := by
  intro b hb
  unfold chunks at hb
  rw [← List.map_dropLast, range_dropLast] at hb
  obtain ⟨i, hi, rfl⟩ := List.mem_map.mp hb
  rw [List.mem_range] at hi
  have hL : l.length ≠ 0 := by
    intro h0
    rw [h0] at hi
    have : (0 + n - 1) / n = 0 :=
      Nat.div_eq_of_lt (by omega)
    omega
  have h1 : (i + 1) * n ≤ ((l.length + n - 1) / n - 1) * n :=
    Nat.mul_le_mul (by omega) (Nat.le_refl n)
  have h2 := numChunks_pred_mul_lt l.length n hn hL
  have h3 : (i + 1) * n = i * n + n := Nat.succ_mul i n
  rw [List.length_take, List.length_drop, Nat.min_eq_left (by omega)]

lemma last_size_eq (L n N q r : Nat)
    (hN : N = q + 1) (hdm : n * q + r = L - 1) (hr : r < n) (hL : L ≠ 0)
    (hub : L ≤ N * n) :
    min n (L - (N - 1) * n) = if L % n = 0 then n else L % n := by
  subst hN
  rw [Nat.add_sub_cancel]
  have hqn : q * n = n * q := Nat.mul_comm q n
  have hsm : (q + 1) * n = q * n + n := Nat.succ_mul q n
  have hLeq : L = n * q + r + 1 := by omega
  have hmod : L % n = (r + 1) % n := by
    rw [hLeq, show n * q + r + 1 = r + 1 + q * n from by rw [hqn]; omega,
      Nat.add_mul_mod_self_right]
  rw [hmod]
  rcases Nat.lt_or_ge (r + 1) n with hlt | hge
  · rw [Nat.mod_eq_of_lt hlt, if_neg (by omega), Nat.min_eq_right (by omega)]
    omega
  · have hrn : r + 1 = n := by omega
    rw [hrn, Nat.mod_self, if_pos rfl, Nat.min_eq_right (by omega)]
    omega

lemma chunks_getLast?_of_ne_nil {α : Type} {n : Nat} (hn : n ≠ 0) {l : List α}
    (h : l ≠ []) :
    ∃ lastB, (chunks n l).getLast? = some lastB ∧
      lastB.length = (if l.length % n = 0 then n else l.length % n) := by
  have hL : l.length ≠ 0 := fun h0 => h (List.eq_nil_of_length_eq_zero h0)
  have hN1 : (l.length + n - 1) / n = (l.length - 1) / n + 1 :=
    numChunks_succ _ _ hn hL
  refine ⟨(l.drop (((l.length + n - 1) / n - 1) * n)).take n, ?_, ?_⟩
  · rw [List.getLast?_eq_getElem? _, chunks_length]
    refine chunks_getElem? n l _ ?_
    rw [hN1]
    exact Nat.sub_lt (Nat.succ_pos _) Nat.one_pos
  · rw [List.length_take, List.length_drop]
    exact last_size_eq l.length n ((l.length + n - 1) / n) ((l.length - 1) / n)
      ((l.length - 1) % n) hN1 (Nat.div_add_mod (l.length - 1) n)
      (Nat.mod_lt _ (Nat.pos_of_ne_zero hn)) hL (le_numChunks_mul l.length n hn)

/-! ### Lemmas about `get_slice` boundaries -/

lemma sliceStart_le_sliceEnd (len K i : Nat) :
    sliceStart len i K ≤ sliceEnd len i K :=
  Nat.div_le_div_right (Nat.mul_le_mul (Nat.sub_le i 1) (Nat.le_refl len))

lemma sliceEnd_le_len (len K i : Nat) (hK : 1 ≤ K) (hi : i ≤ K) :
    sliceEnd len i K ≤ len := by
  unfold sliceEnd
  calc i * len / K ≤ K * len / K :=
        Nat.div_le_div_right (Nat.mul_le_mul hi (Nat.le_refl len))
    _ = len := Nat.mul_div_cancel_left len hK

lemma sliceEnd_le_sliceStart (len K i j : Nat) (hij : i < j) :
    sliceEnd len i K ≤ sliceStart len j K := by
  unfold sliceEnd sliceStart
  exact Nat.div_le_div_right (Nat.mul_le_mul (by omega) (Nat.le_refl len))

lemma flatten_slices_aux {α : Type} (data : List α) (K : Nat) :
    ∀ m, ((List.range m).map (fun j => get_slice data (j + 1) K)).flatten
      = data.take (m * data.length / K) := by
  intro m
  induction m with
  | zero => simp
  | succ m ih =>
    rw [List.range_succ, List.map_append, List.flatten_append, ih]
    simp only [List.map_cons, List.map_nil, List.flatten_cons, List.flatten_nil,
      List.append_nil]
    unfold get_slice sliceStart sliceEnd
    rw [Nat.add_sub_cancel]
    have hab : m * data.length / K ≤ (m + 1) * data.length / K :=
      Nat.div_le_div_right (Nat.mul_le_mul (Nat.le_succ m) (Nat.le_refl _))
    rw [← List.take_add, Nat.add_sub_cancel' hab]

/-! ### Lemmas about `writeLoop` -/

lemma writeLoop_all_ok {ε : Type} (sink : Nat → Except ε Unit)
    (hok : ∀ k, sink k = .ok ()) :
    ∀ (bs : List (List ArxivEntry2)) (i : Nat), writeLoop sink i bs = (bs, bs, .ok) := by
  intro bs
  induction bs with
  | nil => intro i; rfl
  | cons b rest ih =>
    intro i
    simp only [writeLoop, hok i, ih (i + 1)]

lemma writeLoop_fail {ε : Type} (sink : Nat → Except ε Unit) (e : ε) :
    ∀ (bs : List (List ArxivEntry2)) (i n : Nat), 1 ≤ n → n ≤ bs.length →
      (∀ k, k < n - 1 → sink (i + k) = .ok ()) →
      sink (i + (n - 1)) = .error e →
      writeLoop sink i bs = (bs.take n, bs.take (n - 1), .fail (i + n) e) := by
  intro bs
  induction bs with
  | nil =>
    intro i n h1 h2 _ _
    simp only [List.length_nil] at h2
    omega
  | cons b rest ih =>
    intro i n h1 h2 hok hfail
    rcases n with _ | n1
    · omega
    rcases n1 with _ | m
    · rw [Nat.sub_self, Nat.add_zero] at hfail
      simp only [writeLoop, hfail]
      rfl
    · have hok0 : sink i = .ok () := by
        have h0 := hok 0 (by omega)
        rwa [Nat.add_zero] at h0
      have hih := ih (i + 1) (m + 1) (by omega)
        (by simp only [List.length_cons] at h2; omega)
        (fun k hk => by
          have hkk := hok (k + 1) (by omega)
          rwa [show i + (k + 1) = i + 1 + k from by omega] at hkk)
        (by rwa [show i + 1 + (m + 1 - 1) = i + (m + 2 - 1) from by omega])
      simp only [writeLoop, hok0, hih]
      rw [show i + 1 + (m + 1) = i + (m + 2) from by omega]
      rfl

/-! ### Claim theorems -/

/-- C1: for every dataset length `L ≥ 0` and worker count `K ≥ 1`, worker `i`
(`1 ≤ i ≤ K`) receives the contiguous slice `[(i-1)*L/K, i*L/K)` under integer
floor division, the slices are pairwise disjoint and ordered (the end of an
earlier slice never exceeds the start of a later one), and their concatenation
in partition order is exactly the original dataset. -/
theorem partitioner_contract {α : Type} (data : List α) (K : Nat) (hK : 1 ≤ K) :
    (∀ i, 1 ≤ i → i ≤ K →
        get_slice data i K
          = (data.drop ((i - 1) * data.length / K)).take
              (i * data.length / K - (i - 1) * data.length / K))
  ∧ (∀ i j, i < j →
        sliceEnd data.length i K ≤ sliceStart data.length j K)
  ∧ ((List.range K).map (fun j => get_slice data (j + 1) K)).flatten = data := by
  refine ⟨fun i _ _ => rfl, fun i j hij => sliceEnd_le_sliceStart _ _ _ _ hij, ?_⟩
  rw [flatten_slices_aux data K K, Nat.mul_div_cancel_left data.length hK,
    List.take_length]

/-- Witness for C1 at Scenario A of the spec: 10 records, 3 workers. -/
theorem partitioner_contract_witness :
    (∀ i, 1 ≤ i → i ≤ 3 →
        get_slice (List.range 10) i 3
          = ((List.range 10).drop ((i - 1) * (List.range 10).length / 3)).take
              (i * (List.range 10).length / 3 - (i - 1) * (List.range 10).length / 3))
  ∧ (∀ i j, i < j →
        sliceEnd (List.range 10).length i 3 ≤ sliceStart (List.range 10).length j 3)
  ∧ ((List.range 3).map (fun j => get_slice (List.range 10) (j + 1) 3)).flatten
      = List.range 10 :=
  partitioner_contract (List.range 10) 3 (by decide)

/-- C3: for every partition and every `chunk_size > 0`, the batches are each
of size exactly `chunk_size` except possibly the last, the last has size
`len % chunk_size` when the length is not evenly divisible and `chunk_size`
when it is, and the batches concatenate in order to exactly the partition. -/
theorem batcher_contract (part : List ArxivEntry2) (c : Nat) (hc : 0 < c) :
    (chunks c part).flatten = part
  ∧ (∀ b ∈ (chunks c part).dropLast, b.length = c)
  ∧ (part ≠ [] →
      ∃ lastB, (chunks c part).getLast? = some lastB ∧
        lastB.length = (if part.length % c = 0 then c else part.length % c)) :=
  ⟨chunks_flatten (Nat.pos_iff_ne_zero.mp hc) part,
   chunks_dropLast (Nat.pos_iff_ne_zero.mp hc) part,
   fun h => chunks_getLast?_of_ne_nil (Nat.pos_iff_ne_zero.mp hc) h⟩

/-- Witness for C3: 10 records, chunk size 4 (batches of sizes 4, 4, 2). -/
theorem batcher_contract_witness :
    (chunks 4 ((List.range 10).map (fun k => toArxivEntry2 (sampleEntryAt k)))).flatten
        = (List.range 10).map (fun k => toArxivEntry2 (sampleEntryAt k))
  ∧ (∀ b ∈ (chunks 4 ((List.range 10).map (fun k => toArxivEntry2 (sampleEntryAt k)))).dropLast,
        b.length = 4)
  ∧ ((List.range 10).map (fun k => toArxivEntry2 (sampleEntryAt k)) ≠ [] →
      ∃ lastB,
        (chunks 4 ((List.range 10).map (fun k => toArxivEntry2 (sampleEntryAt k)))).getLast?
            = some lastB ∧
        lastB.length
            = (if ((List.range 10).map (fun k => toArxivEntry2 (sampleEntryAt k))).length % 4 = 0
               then 4
               else ((List.range 10).map (fun k => toArxivEntry2 (sampleEntryAt k))).length % 4)) :=
  batcher_contract ((List.range 10).map (fun k => toArxivEntry2 (sampleEntryAt k))) 4
    (by decide)

/-- C10: for every dataset length, worker count `K ≥ 1` and thread index
`1 ≤ i ≤ K`, the bounds computed by `get_slice` satisfy
`(i-1)*L/K ≤ i*L/K ≤ L`, so the Rust slicing `data[start..end]` is in bounds
(and therefore cannot panic), and the slice has exactly `end - start` elements. -/
theorem get_slice_in_bounds {α : Type} (data : List α) (K i : Nat)
    (h1 : 1 ≤ i) (h2 : i ≤ K) :
    sliceStart data.length i K ≤ sliceEnd data.length i K
  ∧ sliceEnd data.length i K ≤ data.length
  ∧ (get_slice data i K).length
      = sliceEnd data.length i K - sliceStart data.length i K := by
  have hK : 1 ≤ K := le_trans h1 h2
  refine ⟨sliceStart_le_sliceEnd _ _ _, sliceEnd_le_len _ _ _ hK h2, ?_⟩
  unfold get_slice
  rw [List.length_take, List.length_drop,
    Nat.min_eq_left (Nat.sub_le_sub_right (sliceEnd_le_len data.length K i hK h2) _)]

/-- Witness for C10: 10 records, 3 workers, thread 2. -/
theorem get_slice_in_bounds_witness :
    sliceStart (List.range 10).length 2 3 ≤ sliceEnd (List.range 10).length 2 3
  ∧ sliceEnd (List.range 10).length 2 3 ≤ (List.range 10).length
  ∧ (get_slice (List.range 10) 2 3).length
      = sliceEnd (List.range 10).length 2 3 - sliceStart (List.range 10).length 2 3 :=
  get_slice_in_bounds (List.range 10) 3 2 (by decide) (by decide)

/-- C2: if the write of the n-th batch (1-based) of a worker partition fails,
the worker writes exactly the first n-1 batches, attempts no batch after the
n-th, and terminates as Failed recording the failing batch index and the
underlying error; each worker spawned by main is completely determined by its
own slice and its own sink (so siblings are unaffected), and a worker whose
own sink always succeeds still reports success. -/
theorem worker_fail_fast {ε : Type} (items : List ArxivEntry)
    (chunkSize n : Nat) (e : ε) (sink : Nat → Except ε Unit)
    (hcs : chunkSize ≠ 0) (hne : items ≠ []) (hn : 1 ≤ n)
    (hlen : n ≤ (chunks chunkSize (items.map toArxivEntry2)).length)
    (hok : ∀ k, k < n - 1 → sink k = .ok ())
    (hfail : sink (n - 1) = .error e) :
    (insertItems items chunkSize sink).written
        = (chunks chunkSize (items.map toArxivEntry2)).take (n - 1)
  ∧ (insertItems items chunkSize sink).attempted
        = (chunks chunkSize (items.map toArxivEntry2)).take n
  ∧ (insertItems items chunkSize sink).outcome = .fail n e
  ∧ (∀ (threads : Nat) (cliTable : Option String) (rand : String)
       (data : List ArxivEntry) (sinks : Nat → Nat → Except ε Unit) (j : Nat),
         j < threads →
         (runMain threads cliTable chunkSize rand data sinks).workers[j]?
           = some { threadId := j + 1
                    table := resolveTable cliTable rand
                    trace := insertItems (get_slice data (j + 1) threads)
                               chunkSize (sinks (j + 1)) })
  ∧ (∀ sink2 : Nat → Except ε Unit, (∀ k, sink2 k = .ok ()) →
       (insertItems items chunkSize sink2).outcome = .ok) := by
  have hwl := writeLoop_fail sink e (chunks chunkSize (items.map toArxivEntry2)) 0 n hn hlen
    (fun k hk => by rw [Nat.zero_add]; exact hok k hk)
    (by rw [Nat.zero_add]; exact hfail)
  refine ⟨?_, ?_, ?_, ?_, ?_⟩
  · simp only [insertItems, if_neg hne, if_neg hcs, hwl]
  · simp only [insertItems, if_neg hne, if_neg hcs, hwl]
  · simp only [insertItems, if_neg hne, if_neg hcs, hwl, Nat.zero_add]
  · intro threads cliTable rand data sinks j hj
    simp [runMain, List.getElem?_map, List.getElem?_range, hj]
  · intro sink2 hok2
    simp only [insertItems, if_neg hne, if_neg hcs,
      writeLoop_all_ok sink2 hok2 _ 0]

/-- Witness for C2: three records, chunk size 1, the second write fails. -/
theorem worker_fail_fast_witness :
    (insertItems ((List.range 3).map sampleEntryAt) 1
        (fun k => if k = 0 then Except.ok () else Except.error "boom")).written
        = (chunks 1 (((List.range 3).map sampleEntryAt).map toArxivEntry2)).take 1
  ∧ (insertItems ((List.range 3).map sampleEntryAt) 1
        (fun k => if k = 0 then Except.ok () else Except.error "boom")).attempted
        = (chunks 1 (((List.range 3).map sampleEntryAt).map toArxivEntry2)).take 2
  ∧ (insertItems ((List.range 3).map sampleEntryAt) 1
        (fun k => if k = 0 then Except.ok () else Except.error "boom")).outcome
        = .fail 2 "boom"
  ∧ (∀ (threads : Nat) (cliTable : Option String) (rand : String)
       (data : List ArxivEntry) (sinks : Nat → Nat → Except String Unit) (j : Nat),
         j < threads →
         (runMain threads cliTable 1 rand data sinks).workers[j]?
           = some { threadId := j + 1
                    table := resolveTable cliTable rand
                    trace := insertItems (get_slice data (j + 1) threads)
                               1 (sinks (j + 1)) })
  ∧ (∀ sink2 : Nat → Except String Unit, (∀ k, sink2 k = .ok ()) →
       (insertItems ((List.range 3).map sampleEntryAt) 1 sink2).outcome = .ok) :=
  worker_fail_fast ((List.range 3).map sampleEntryAt) 1 2 "boom"
    (fun k => if k = 0 then Except.ok () else Except.error "boom")
    (by decide) (by decide) (by decide) (by decide)
    (fun k hk => by
      have hk0 : k = 0 := by omega
      rw [hk0]
      rfl)
    rfl

/-- C9: a worker whose assigned partition is empty returns success
immediately: `insert_items` opens no connection, attempts no write, and the
worker reports Ok with zero batches written, for every chunk size and sink. -/
theorem empty_partition_noop {ε : Type} (chunkSize : Nat)
    (sink : Nat → Except ε Unit) :
    (insertItems ([] : List ArxivEntry) chunkSize sink).connected = false
  ∧ (insertItems ([] : List ArxivEntry) chunkSize sink).attempted = []
  ∧ (insertItems ([] : List ArxivEntry) chunkSize sink).written = []
  ∧ (insertItems ([] : List ArxivEntry) chunkSize sink).outcome = .ok :=
  ⟨rfl, rfl, rfl, rfl⟩

/-- C7: the destination table name is resolved exactly once, before the spawn
loop, from the optional --table argument and the single random string
generated at startup; all K workers carry exactly that one name. -/
theorem table_computed_once {ε : Type} (threads : Nat) (cliTable : Option String)
    (chunkSize : Nat) (rand : String) (data : List ArxivEntry)
    (sinks : Nat → Nat → Except ε Unit) :
    (runMain threads cliTable chunkSize rand data sinks).table
        = resolveTable cliTable rand
  ∧ ((runMain threads cliTable chunkSize rand data sinks).workers.map WorkerRun.table)
        = List.replicate threads (resolveTable cliTable rand) := by
  refine ⟨rfl, ?_⟩
  simp [runMain, List.map_map, Function.comp_def]

/-- C5 (code evidence): with `threads = 0` the spawn loop `1..=0` runs zero
iterations: no worker is created, no connection is attempted, and the run
terminates with exit code 0 and no error of any kind — the code never rejects
the configuration (it defines no ConfigurationError at all). -/
theorem k_zero_spawns_nothing_and_exits_zero {ε : Type} (cliTable : Option String)
    (chunkSize : Nat) (rand : String) (data : List ArxivEntry)
    (sinks : Nat → Nat → Except ε Unit) :
    (runMain 0 cliTable chunkSize rand data sinks).workers = []
  ∧ (runMain 0 cliTable chunkSize rand data sinks).exitCode = 0 :=
  ⟨rfl, rfl⟩

/-- C6 (code evidence): `main` ends with `Ok(())` on every path, so the
process exit code is 0 no matter what the workers did; concretely, a run
whose single worker fails its first batch still exits 0. -/
theorem exit_code_always_zero :
    (∀ (ε : Type) (threads : Nat) (cliTable : Option String) (chunkSize : Nat)
       (rand : String) (data : List ArxivEntry)
       (sinks : Nat → Nat → Except ε Unit),
         (runMain threads cliTable chunkSize rand data sinks).exitCode = 0)
  ∧ (∃ w ∈ (runMain 1 none 1 "t" [sampleEntry]
        (fun _ _ => (Except.error "boom" : Except String Unit))).workers,
        w.trace.outcome = .fail 1 "boom")
  ∧ (runMain 1 none 1 "t" [sampleEntry]
        (fun _ _ => (Except.error "boom" : Except String Unit))).exitCode = 0 :=
  ⟨fun _ _ _ _ _ _ _ => rfl, by decide, rfl⟩

/-- C8 (code evidence): with `chunk_size = 0` and a nonempty partition the
worker does start and `build_connection` is invoked, after which
`items.chunks(0)` panics; nothing rejects the configuration before the
workers start and no ConfigurationError exists in the code. -/
theorem chunk_size_zero_connects_then_panics :
    (insertItems [sampleEntry] 0
        (fun _ => (Except.ok () : Except String Unit))).connected = true
  ∧ (insertItems [sampleEntry] 0
        (fun _ => (Except.ok () : Except String Unit))).attempted = []
  ∧ (insertItems [sampleEntry] 0
        (fun _ => (Except.ok () : Except String Unit))).outcome = .panicked :=
  ⟨rfl, rfl, rfl⟩

/-- C4 (counterexample): the claim that the content of each record sent to
the sink is exactly the content of the record as loaded fails on the code:
`insert_items` converts every `ArxivEntry` to `ArxivEntry2` before writing,
which strips the `id` field, so the wire form of a sent record with `id = 5`
differs from the wire form of the loaded record. -/
theorem record_sent_differs_from_loaded :
    fieldsOf2 (toArxivEntry2 sampleEntry) ≠ fieldsOf sampleEntry := by
  decide

/-- C4 (amended): every field present in a record sent to the sink equals the
corresponding field of the record as loaded, and the sent field list is
exactly the loaded field list with the `id` field removed — the core regroups
records and strips the identifier, mutating nothing else. -/
theorem record_fields_preserved_except_id (e : ArxivEntry) :
    fieldsOf2 (toArxivEntry2 e)
      = (fieldsOf e).filter (fun p => p.1 != "id") := by
  simp [fieldsOf, fieldsOf2, toArxivEntry2]

end ParallelSurreal
